import Mathlib

/-!
# Verification of the vigilante character simulation core

Shallow embedding of `Source/character/Character.cc` (namespace `vigilante`):
the animation state machine, attack-animation rotation, movement impulses,
fixture redefinition, the combat resolver (damage, lock-on, death transition),
the inventory/equipment subsystem, and experience/levelling.

Machine `int` values are modelled as `Int`, Box2D `float` quantities as `ℚ`.
Characters in the multi-character combat model are identified by `CharId`;
non-owning pointers (`Character*`) become `Option CharId` / `Finset CharId`.
-/

namespace Vigilante

/-! ## Character::State (Character.h enum, as used throughout Character.cc) -/

inductive State where
  | IDLE
  | RUNNING
  | RUNNING_START
  | RUNNING_STOP
  | JUMPING
  | FALLING
  | FALLING_GETUP
  | CROUCHING
  | DODGING_BACKWARD
  | DODGING_FORWARD
  | ATTACKING
  | ATTACKING_UNARMED
  | ATTACKING_CROUCH
  | ATTACKING_FORWARD
  | ATTACKING_MIDAIR
  | ATTACKING_MIDAIR_DOWNWARD
  | ATTACKING_UPWARD
  | SPELLCAST
  | KILLED
  | FORCE_UPDATE
deriving DecidableEq, Repr

/-! ## Animation state machine: Character::determineState / determineAttackState

The inputs read by `Character::determineState` (Character.cc lines 418-461):
the transient boolean flags, the Box2D body's linear velocity, the recorded
overriding attack state, and whether the WEAPON equipment slot is occupied. -/

structure StateCtx where
  isSetToKill : Bool
  isGettingUpFromFalling : Bool
  isAttacking : Bool
  isDodgingBackward : Bool
  isDodgingForward : Bool
  isJumping : Bool
  isCrouching : Bool
  isStartRunning : Bool
  isStopRunning : Bool
  velocityX : ℚ
  velocityY : ℚ
  overridingAttackState : Option State
  hasWeaponEquipped : Bool
deriving DecidableEq

/-- `Character::determineAttackState` (Character.cc lines 446-461). -/
def determineAttackState (c : StateCtx) : State :=
  match c.overridingAttackState with
  | some s => s
  | none =>
    if !c.hasWeaponEquipped then State.ATTACKING_UNARMED
    else if c.isCrouching then State.ATTACKING_CROUCH
    else if c.isJumping then State.ATTACKING_MIDAIR
    else State.ATTACKING

/-- `Character::determineState` (Character.cc lines 418-444). -/
def determineState (c : StateCtx) : State :=
  if c.isSetToKill then State.KILLED
  else if c.isGettingUpFromFalling then State.FALLING_GETUP
  else if c.isAttacking then determineAttackState c
  else if c.isDodgingBackward then State.DODGING_BACKWARD
  else if c.isDodgingForward then State.DODGING_FORWARD
  else if c.velocityY < -(5/2 : ℚ) then State.FALLING
  else if c.isJumping then State.JUMPING
  else if c.isCrouching then State.CROUCHING
  else if c.isStartRunning then State.RUNNING_START
  else if c.isStopRunning then State.RUNNING_STOP
  else if |c.velocityX| > (1/100 : ℚ) then State.RUNNING
  else State.IDLE

/-- First-match evaluation of a priority-ordered condition list, defaulting to
IDLE.  This is the spec-side formulation of the state machine ("closed set,
priority-ordered, evaluated top-to-bottom; first match wins"), to be compared
with `determineState` as translated from the source. -/
def stateFirstMatch : List (Bool × State) → State
  | [] => State.IDLE
  | (b, s) :: rest => if b then s else stateFirstMatch rest

/-- The spec's priority-ordered condition list:
KILLED > FALLING_GETUP > attacking-variant > DODGING_BACKWARD >
DODGING_FORWARD > FALLING (vy < -2.5) > JUMPING > CROUCHING >
RUNNING_START > RUNNING_STOP > RUNNING (|vx| > 0.01) > IDLE (default). -/
def specStatePriority (c : StateCtx) : List (Bool × State) :=
  [(c.isSetToKill, State.KILLED),
   (c.isGettingUpFromFalling, State.FALLING_GETUP),
   (c.isAttacking, determineAttackState c),
   (c.isDodgingBackward, State.DODGING_BACKWARD),
   (c.isDodgingForward, State.DODGING_FORWARD),
   (decide (c.velocityY < -(5/2 : ℚ)), State.FALLING),
   (c.isJumping, State.JUMPING),
   (c.isCrouching, State.CROUCHING),
   (c.isStartRunning, State.RUNNING_START),
   (c.isStopRunning, State.RUNNING_STOP),
   (decide (|c.velocityX| > (1/100 : ℚ)), State.RUNNING)]

/-! ## Attack animation rotation: Character::runAnimation (lines 373-386)

`_attackAnimationIdx` is incremented, modulo `_kAttackAnimationIdxMax`
(which is `1 + getExtraAttackAnimationsCount()`), exactly when the dispatched
state is the literal `State::ATTACKING`. -/

/-- The effect of `Character::runAnimation(state, loop)` on
`_attackAnimationIdx` (Character.cc lines 381-385). -/
def runAnimationIdx (kAttackAnimationIdxMax : Nat) (state : State) (attackAnimationIdx : Nat) : Nat :=
  if state = State.ATTACKING then (attackAnimationIdx + 1) % kAttackAnimationIdxMax
  else attackAnimationIdx

/-- The attack-animation index after a sequence of animation dispatches. -/
def dispatchSeqIdx (kAttackAnimationIdxMax : Nat) (states : List State) (attackAnimationIdx : Nat) : Nat :=
  states.foldl (fun i s => runAnimationIdx kAttackAnimationIdxMax s i) attackAnimationIdx

/-! ## Movement: Character::moveLeft / moveRight (lines 526-558)

The body velocity is read from the physics collaborator; the effect of a call
is the new facing flag, whether `startRunning()` fired, and the horizontal
linear impulse requested of the physics engine (if any). -/

structure MoveCtx where
  isCrouching : Bool
  isGettingUpFromFalling : Bool
  velocityX : ℚ
  moveSpeed : ℚ
deriving DecidableEq

structure MoveOut where
  isFacingRight : Bool
  startedRunning : Bool
  impulseX : Option ℚ
deriving DecidableEq

/-- `Character::moveLeft` (Character.cc lines 526-541). -/
def moveLeft (c : MoveCtx) : MoveOut :=
  if c.isCrouching || c.isGettingUpFromFalling then
    { isFacingRight := false, startedRunning := false, impulseX := none }
  else
    { isFacingRight := false,
      startedRunning := decide (c.velocityX = 0),
      impulseX :=
        if c.velocityX ≥ -(c.moveSpeed * 2) then some (-c.moveSpeed) else none }

/-- `Character::moveRight` (Character.cc lines 543-558). -/
def moveRight (c : MoveCtx) : MoveOut :=
  if c.isCrouching || c.isGettingUpFromFalling then
    { isFacingRight := true, startedRunning := false, impulseX := none }
  else
    { isFacingRight := true,
      startedRunning := decide (c.velocityX = 0),
      impulseX :=
        if c.velocityX ≤ c.moveSpeed * 2 then some c.moveSpeed else none }

/-! ## Fixtures: Character::redefineFeetFixture (lines 220-240)

Modelled at slot level: the three fixture slots `_fixtures[BODY]`,
`_fixtures[FEET]`, `_fixtures[WEAPON]`, each holding a fixture's filter data. -/

structure Fixture where
  categoryBits : Nat
  maskBits : Nat
deriving DecidableEq

structure CharFixtures where
  body : Option Fixture
  feet : Option Fixture
  weapon : Option Fixture
deriving DecidableEq

/-- `category_bits::kFeet` (from Constants.h, which is not among the supplied
sources; the exact value is irrelevant to the claims). -/
def kFeetCategoryBits : Nat := 2

/-- `Character::redefineFeetFixture` (Character.cc lines 220-240).  When a FEET
fixture exists, the source reads the FEET fixture's mask bits but then calls
`_body->DestroyFixture(_fixtures[FixtureType::BODY])` and nulls the BODY slot
(lines 224-225) before rebuilding the FEET slot. -/
def redefineFeetFixture (f : CharFixtures) (feetMaskBits : Nat) : CharFixtures :=
  match f.feet with
  | some oldFeet =>
      { f with body := none,
               feet := some { categoryBits := kFeetCategoryBits, maskBits := oldFeet.maskBits } }
  | none =>
      { f with feet := some { categoryBits := kFeetCategoryBits, maskBits := feetMaskBits } }

/-! ## Combat resolver: receiveDamage / inflictDamage / lockOn, stat regen,
consumable use (Character.cc lines 55-84, 759-833, 893-920, 1074-1096)

Multi-character state: a world maps a character id to its state.  Ally groups
(`Character::getAllies`, derived from the `_party` collaborator, which never
changes during these operations) are passed as a static function. -/

abbrev CharId := Nat

structure CharState where
  health : Int
  fullHealth : Int
  magicka : Int
  fullMagicka : Int
  stamina : Int
  fullStamina : Int
  baseMeleeDamage : Int
  strength : Int
  dexterity : Int
  intelligence : Int
  luck : Int
  moveSpeed : ℚ
  jumpHeight : ℚ
  isShownOnMap : Bool
  isKilled : Bool
  isSetToKill : Bool
  isInvincible : Bool
  isTakingDamage : Bool
  isAlerted : Bool
  bodyDestroyedCategory : Bool
  inRangeTargets : Finset CharId
  lockedOnTarget : Option CharId
deriving DecidableEq

abbrev World := CharId → CharState

/-- Replace the state of one character. -/
def updateChar (w : World) (id : CharId) (f : CharState → CharState) : World :=
  fun j => if j = id then f (w j) else w j

/-- `Character::regenHealth` (Character.cc lines 1074-1080). -/
def regenHealth (c : CharState) (deltaHealth : Int) : CharState :=
  let h := c.health + deltaHealth
  { c with health := if h > c.fullHealth then c.fullHealth else h }

/-- `Character::regenMagicka` (Character.cc lines 1082-1088). -/
def regenMagicka (c : CharState) (deltaMagicka : Int) : CharState :=
  let m := c.magicka + deltaMagicka
  { c with magicka := if m > c.fullMagicka then c.fullMagicka else m }

/-- `Character::regenStamina` (Character.cc lines 1090-1096). -/
def regenStamina (c : CharState) (deltaStamina : Int) : CharState :=
  let s := c.stamina + deltaStamina
  { c with stamina := if s > c.fullStamina then c.fullStamina else s }

/-- The stats-regeneration step of `Character::update` (Character.cc lines
55-84): it is skipped entirely when the character is not shown on the map or
already killed, and otherwise (once `_statsRegenTimer` reaches 5 seconds)
applies the three base regeneration deltas. -/
def updateStatsRegen (w : World) (tgt : CharId) (dh dm ds : Int) : World :=
  if !(w tgt).isShownOnMap || (w tgt).isKilled then w
  else updateChar w tgt (fun c => regenStamina (regenMagicka (regenHealth c dh) dm) ds)

/-- The `Consumable::Profile` fields read by `Character::useItem`. -/
structure ConsumableProfile where
  restoreHealth : Int
  restoreMagicka : Int
  restoreStamina : Int
  bonusPhysicalDamage : Int
  bonusStr : Int
  bonusDex : Int
  bonusInt : Int
  bonusLuk : Int
  bonusMoveSpeed : ℚ
  bonusJumpHeight : ℚ
deriving DecidableEq

/-- The profile-mutation part of `Character::useItem` (Character.cc lines
893-914).  The inventory side effect `removeItem(consumable, 1)` is modelled
in the inventory component below and does not touch any of these stats. -/
def useItemStats (c : CharState) (cp : ConsumableProfile) : CharState :=
  let c := { c with health := c.health + cp.restoreHealth }
  let c := if c.health > c.fullHealth then { c with health := c.fullHealth } else c
  let c := { c with magicka := c.magicka + cp.restoreMagicka }
  let c := if c.magicka > c.fullMagicka then { c with magicka := c.fullMagicka } else c
  let c := { c with stamina := c.stamina + cp.restoreStamina }
  let c := if c.stamina > c.fullStamina then { c with stamina := c.fullStamina } else c
  { c with
    baseMeleeDamage := c.baseMeleeDamage + cp.bonusPhysicalDamage,
    strength := c.strength + cp.bonusStr,
    dexterity := c.dexterity + cp.bonusDex,
    intelligence := c.intelligence + cp.bonusInt,
    luck := c.luck + cp.bonusLuk,
    moveSpeed := c.moveSpeed + cp.bonusMoveSpeed,
    jumpHeight := c.jumpHeight + cp.bonusJumpHeight }

/-- The per-ally cleanup in the kill branch of `Character::receiveDamage`
(Character.cc lines 803-808): erase the dying character from the ally's
in-range-target set, and clear the ally's lock-on if it points at it. -/
def allyCleanupOnKill (tgt : CharId) (c : CharState) : CharState :=
  let c := { c with inRangeTargets := c.inRangeTargets.erase tgt }
  if c.lockedOnTarget = some tgt then { c with lockedOnTarget := none } else c

/-- `Character::receiveDamage` (Character.cc lines 778-828).  `src` is the
`source` argument, `tgt` is `this`.  The returned Bool is the C++ return
value.  Scene/HUD/audio notifications are external and not modelled. -/
def receiveDamage (allies : CharId → List CharId) (w : World) (src tgt : CharId)
    (damage : Int) : World × Bool :=
  if (w src).isSetToKill || (w src).isKilled then (w, false)
  else if (w tgt).isInvincible then (w, true)
  else
    let w1 := updateChar w tgt (fun c => { c with health := c.health - damage, isTakingDamage := true })
    if (w1 tgt).health ≤ 0 then
      let w2 := updateChar w1 tgt (fun c => { c with health := 0 })
      let w3 := updateChar w2 src (fun c => { c with inRangeTargets := c.inRangeTargets.erase tgt })
      let w4 := (allies src).foldl (fun w a => updateChar w a (allyCleanupOnKill tgt)) w3
      let w5 := updateChar w4 tgt (fun c => { c with bodyDestroyedCategory := true, isSetToKill := true })
      (w5, true)
    else (w1, true)

/-- `Character::lockOn` (Character.cc lines 830-833): sets the alerted flag
and the locked-on target. -/
def lockOn (w : World) (who tgt : CharId) : World :=
  updateChar w who (fun c => { c with isAlerted := true, lockedOnTarget := some tgt })

/-- `Character::inflictDamage` (Character.cc lines 759-776): apply damage to
the target, then the target locks onto the attacker, the attacker's allies
lock onto the target, and the target's allies lock onto the attacker. -/
def inflictDamage (allies : CharId → List CharId) (w : World) (a b : CharId)
    (damage : Int) : World :=
  let w1 := (receiveDamage allies w a b damage).1
  let w2 := lockOn w1 b a
  let w3 := (allies a).foldl (fun w x => lockOn w x b) w2
  (allies b).foldl (fun w x => lockOn w x a) w3

/-! ### Operation sequences acting on one character's health

The operations named by the health invariant: damage receipt, the periodic
regeneration tick of `update`, and consumable use. -/

inductive CombatOp where
  | damage (src : CharId) (amount : Int)
  | regenTick (dh dm ds : Int)
  | consume (cp : ConsumableProfile)
deriving DecidableEq

def applyCombatOp (allies : CharId → List CharId) (tgt : CharId) (w : World) :
    CombatOp → World
  | CombatOp.damage src d => (receiveDamage allies w src tgt d).1
  | CombatOp.regenTick dh dm ds => updateStatsRegen w tgt dh dm ds
  | CombatOp.consume cp => updateChar w tgt (fun c => useItemStats c cp)

def runCombatOps (allies : CharId → List CharId) (tgt : CharId) (w : World)
    (ops : List CombatOp) : World :=
  ops.foldl (applyCombatOp allies tgt) w

/-- The operation's health parameter is nonnegative. -/
def CombatOp.healthNonneg : CombatOp → Bool
  | CombatOp.damage _ d => decide (0 ≤ d)
  | CombatOp.regenTick dh _ _ => decide (0 ≤ dh)
  | CombatOp.consume cp => decide (0 ≤ cp.restoreHealth)

/-- The operation is a damage receipt with nonnegative damage. -/
def CombatOp.isNonnegDamage : CombatOp → Bool
  | CombatOp.damage _ d => decide (0 ≤ d)
  | _ => false

/-! ## Inventory / equipment subsystem: Character::addItem / removeItem /
getItemAmount / equip / unequip (Character.cc lines 835-891, 922-958, 1030-1033)

Item instances are identified by their `jsonFileName`.  `_itemMapper`
(`unordered_map<string, shared_ptr<Item>>`, holding the single canonical
instance plus its amount) is modelled as an association list, so that
"at most one canonical instance per identifier" is a provable property rather
than a structural triviality.  `_inventory` (item category to set of owned
instances) maps a type index to a finite set of identifiers, and
`_equipmentSlots` maps an equipment type to the equipped identifier. -/

structure ItemInfo where
  jsonFileName : String
  itemType : Nat
  equipmentType : Option Nat
deriving DecidableEq

structure ItemEntry where
  info : ItemInfo
  amount : Int
deriving DecidableEq

/-- `Character::getExistingItemObj` (Character.cc lines 885-891): look up the
canonical instance by `jsonFileName`. -/
def mapperFind (m : List ItemEntry) (key : String) : Option ItemEntry :=
  m.find? (fun en => en.info.jsonFileName = key)

/-- `Item::setAmount` on the canonical instance: rewrite the stored amount. -/
def mapperSet (m : List ItemEntry) (key : String) (a : Int) : List ItemEntry :=
  m.map (fun en => if en.info.jsonFileName = key then { en with amount := a } else en)

/-- `_itemMapper.erase(jsonFileName)`. -/
def mapperErase (m : List ItemEntry) (key : String) : List ItemEntry :=
  m.filter (fun en => !(en.info.jsonFileName = key))

/-- Number of canonical instances stored for one identifier. -/
def mapperCount (m : List ItemEntry) (key : String) : Nat :=
  (m.filter (fun en => en.info.jsonFileName = key)).length

structure InventoryState where
  itemMapper : List ItemEntry
  inventory : Nat → Finset String
  equipmentSlots : Nat → Option String

def invInsert (inv : Nat → Finset String) (t : Nat) (key : String) :
    Nat → Finset String :=
  fun t' => if t' = t then insert key (inv t') else inv t'

def invErase (inv : Nat → Finset String) (t : Nat) (key : String) :
    Nat → Finset String :=
  fun t' => if t' = t then (inv t').erase key else inv t'

/-- `Character::addItem` (Character.cc lines 835-854): no-op on zero amount;
otherwise increment the canonical instance's amount, or store the new
instance as canonical; finally index it under its item category. -/
def addItem (st : InventoryState) (item : ItemInfo) (amount : Int) : InventoryState :=
  if amount = 0 then st
  else
    match mapperFind st.itemMapper item.jsonFileName with
    | some en =>
        { st with
          itemMapper := mapperSet st.itemMapper item.jsonFileName (en.amount + amount),
          inventory := invInsert st.inventory en.info.itemType en.info.jsonFileName }
    | none =>
        { st with
          itemMapper := { info := item, amount := amount } :: st.itemMapper,
          inventory := invInsert st.inventory item.itemType item.jsonFileName }

/-- `Character::removeItem` (Character.cc lines 856-880): no-op when the item
is not owned or the amount is zero; otherwise decrement the canonical
instance's amount; at zero, drop it from the category index and delete the
canonical instance unless it is currently equipped. -/
def removeItem (st : InventoryState) (item : ItemInfo) (amount : Int) : InventoryState :=
  match mapperFind st.itemMapper item.jsonFileName with
  | none => st
  | some en =>
    if amount = 0 then st
    else
      let finalAmount := en.amount - amount
      let st1 := { st with itemMapper := mapperSet st.itemMapper item.jsonFileName finalAmount }
      if finalAmount = 0 then
        let st2 := { st1 with inventory := invErase st1.inventory item.itemType item.jsonFileName }
        match en.info.equipmentType with
        | none => { st2 with itemMapper := mapperErase st2.itemMapper item.jsonFileName }
        | some et =>
            if st2.equipmentSlots et = some item.jsonFileName then st2
            else { st2 with itemMapper := mapperErase st2.itemMapper item.jsonFileName }
      else st1

/-- `Character::getItemAmount` (Character.cc lines 1030-1033). -/
def getItemAmount (st : InventoryState) (key : String) : Int :=
  match mapperFind st.itemMapper key with
  | none => 0
  | some en => en.amount

/-- `Character::unequip` (Character.cc lines 936-958): clear the slot, then
move the canonical instance back into the inventory via `addItem`; logs an
error and stops if the instance is missing from `_itemMapper`. -/
def unequip (st : InventoryState) (equipmentType : Nat) : InventoryState :=
  match st.equipmentSlots equipmentType with
  | none => st
  | some key =>
    let st1 := { st with
      equipmentSlots := fun t' => if t' = equipmentType then none else st.equipmentSlots t' }
    match mapperFind st1.itemMapper key with
    | none => st1
    | some en => addItem st1 en.info 1

/-- `Character::equip` (Character.cc lines 922-934): unequip any occupant of
the slot, place the equipment there, then remove one count from inventory. -/
def equip (st : InventoryState) (e : ItemInfo) : InventoryState :=
  match e.equipmentType with
  | none => st
  | some t =>
    let st1 := if (st.equipmentSlots t).isSome then unequip st t else st
    let st2 := { st1 with
      equipmentSlots := fun t' => if t' = t then some e.jsonFileName else st1.equipmentSlots t' }
    removeItem st2 e 1

/-! ### addItem/removeItem operation sequences for one item identifier -/

inductive InvOp where
  | addOp (amount : Int)
  | removeOp (amount : Int)
deriving DecidableEq

def applyInvOp (it : ItemInfo) (st : InventoryState) : InvOp → InventoryState
  | InvOp.addOp n => addItem st it n
  | InvOp.removeOp n => removeItem st it n

def runInvOps (it : ItemInfo) (st : InventoryState) (ops : List InvOp) : InventoryState :=
  ops.foldl (applyInvOp it) st

/-- Net amount of an operation: added amounts count positively, removed
amounts negatively. -/
def invOpNet : InvOp → Int
  | InvOp.addOp n => n
  | InvOp.removeOp n => -n

def invNet (ops : List InvOp) : Int := (ops.map invOpNet).sum

/-- Every removal in the sequence removes a genuine (nonnegative) amount that
does not exceed the quantity owned at that point. -/
def validRemovals (it : ItemInfo) (st : InventoryState) : List InvOp → Bool
  | [] => true
  | InvOp.addOp n :: rest => validRemovals it (addItem st it n) rest
  | InvOp.removeOp n :: rest =>
      decide (0 ≤ n) && decide (n ≤ getItemAmount st it.jsonFileName) &&
        validRemovals it (removeItem st it n) rest

/-! ## Experience and levelling: Character::addExp (lines 981-990)

`exp_point_table::getNextLevelExp` lives in `gameplay/ExpPointTable` which is
not among the supplied sources; the per-level threshold table is therefore a
parameter, required (as the claim assumes) to have positive entries. -/

/-- The `while` loop of `Character::addExp`: while the accumulated experience
reaches the current level's threshold, subtract it and level up.  Termination
uses the positivity of the table. -/
def addExpLoop (tbl : Int → Int) (hpos : ∀ l, 0 < tbl l) (e l : Int) : Int × Int :=
  if h : tbl l ≤ e then
    addExpLoop tbl hpos (e - tbl l) (l + 1)
  else
    (e, l)
termination_by e.toNat
decreasing_by
  have h1 := hpos l
  omega

/-- `Character::addExp` (Character.cc lines 981-990). -/
def addExp (tbl : Int → Int) (hpos : ∀ l, 0 < tbl l) (e l gain : Int) : Int × Int :=
  addExpLoop tbl hpos (e + gain) l

/-- A concrete character state used as the base of example worlds. -/
def baseChar : CharState :=
  { health := 10, fullHealth := 50, magicka := 0, fullMagicka := 0,
    stamina := 0, fullStamina := 0, baseMeleeDamage := 1, strength := 0,
    dexterity := 0, intelligence := 0, luck := 0, moveSpeed := 1,
    jumpHeight := 1, isShownOnMap := true, isKilled := false,
    isSetToKill := false, isInvincible := false, isTakingDamage := false,
    isAlerted := false, bodyDestroyedCategory := false,
    inRangeTargets := ∅, lockedOnTarget := none }

/-! ## Helper lemmas -/

lemma updateChar_same (w : World) (i : CharId) (f : CharState → CharState) :
    updateChar w i f i = f (w i) := by
  simp [updateChar]

lemma updateChar_ne (w : World) (i j : CharId) (f : CharState → CharState)
    (h : j ≠ i) : updateChar w i f j = w j := by
  simp [updateChar, h]

lemma dispatchSeqIdx_replicate (m : Nat) (hm : 0 < m) :
    ∀ (k i : Nat), i < m →
      dispatchSeqIdx m (List.replicate k State.ATTACKING) i = (i + k) % m := by
  intro k
  induction k with
  | zero =>
    intro i hi
    simp [dispatchSeqIdx, Nat.mod_eq_of_lt hi]
  | succ k ih =>
    intro i hi
    rw [List.replicate_succ]
    simp only [dispatchSeqIdx, List.foldl_cons]
    have h1 : runAnimationIdx m State.ATTACKING i = (i + 1) % m := by
      simp [runAnimationIdx]
    rw [h1]
    have h2 := ih ((i + 1) % m) (Nat.mod_lt _ hm)
    simp only [dispatchSeqIdx] at h2
    rw [h2, Nat.mod_add_mod]
    congr 1
    omega

lemma foldl_lockOn_not_mem (l : List CharId) (t m : CharId) (hm : m ∉ l) :
    ∀ w : World, (l.foldl (fun w x => lockOn w x t) w) m = w m := by
  induction l with
  | nil => intro w; rfl
  | cons a l ih =>
    intro w
    simp only [List.foldl_cons]
    rw [ih (fun h => hm (List.mem_cons_of_mem _ h))]
    have ha : m ≠ a := fun h => hm (h ▸ List.mem_cons_self a l)
    simp [lockOn, updateChar_ne _ _ _ _ ha]

lemma foldl_lockOn_mem (l : List CharId) (t m : CharId) (hm : m ∈ l) :
    ∀ w : World, ((l.foldl (fun w x => lockOn w x t) w) m).lockedOnTarget = some t := by
  induction l with
  | nil => cases hm
  | cons a l ih =>
    intro w
    by_cases h : m ∈ l
    · simpa using ih h _
    · have ha : m = a := by
        rcases List.mem_cons.mp hm with h1 | h1
        · exact h1
        · exact absurd h1 h
      simp only [List.foldl_cons]
      rw [foldl_lockOn_not_mem _ _ _ h]
      subst ha
      simp [lockOn, updateChar_same]

lemma allyCleanupOnKill_health (t : CharId) (c : CharState) :
    (allyCleanupOnKill t c).health = c.health := by
  simp only [allyCleanupOnKill]; split_ifs <;> rfl

lemma allyCleanupOnKill_fullHealth (t : CharId) (c : CharState) :
    (allyCleanupOnKill t c).fullHealth = c.fullHealth := by
  simp only [allyCleanupOnKill]; split_ifs <;> rfl

lemma allyCleanupOnKill_isSetToKill (t : CharId) (c : CharState) :
    (allyCleanupOnKill t c).isSetToKill = c.isSetToKill := by
  simp only [allyCleanupOnKill]; split_ifs <;> rfl

lemma allyCleanupOnKill_isTakingDamage (t : CharId) (c : CharState) :
    (allyCleanupOnKill t c).isTakingDamage = c.isTakingDamage := by
  simp only [allyCleanupOnKill]; split_ifs <;> rfl

lemma allyCleanupOnKill_not_mem (t : CharId) (c : CharState) :
    t ∉ (allyCleanupOnKill t c).inRangeTargets := by
  simp only [allyCleanupOnKill]
  split_ifs <;> simp

lemma allyCleanupOnKill_lockedOn (t : CharId) (c : CharState) :
    (allyCleanupOnKill t c).lockedOnTarget ≠ some t := by
  simp only [allyCleanupOnKill]
  split_ifs with h
  · simp
  · simpa using h

lemma allyCleanupOnKill_idem (t : CharId) (c : CharState) :
    allyCleanupOnKill t (allyCleanupOnKill t c) = allyCleanupOnKill t c := by
  simp only [allyCleanupOnKill]
  split_ifs with h1 h2 h3 <;> simp_all

lemma foldl_cleanup_not_mem (l : List CharId) (t m : CharId) (hm : m ∉ l) :
    ∀ w : World,
      (l.foldl (fun w a => updateChar w a (allyCleanupOnKill t)) w) m = w m := by
  induction l with
  | nil => intro w; rfl
  | cons a l ih =>
    intro w
    simp only [List.foldl_cons]
    rw [ih (fun h => hm (List.mem_cons_of_mem _ h))]
    have ha : m ≠ a := fun h => hm (h ▸ List.mem_cons_self a l)
    exact updateChar_ne _ _ _ _ ha

lemma foldl_cleanup_eq_or (l : List CharId) (t m : CharId) :
    ∀ w : World,
      (l.foldl (fun w a => updateChar w a (allyCleanupOnKill t)) w) m = w m
      ∨ (l.foldl (fun w a => updateChar w a (allyCleanupOnKill t)) w) m
          = allyCleanupOnKill t (w m) := by
  induction l with
  | nil => intro w; left; rfl
  | cons a l ih =>
    intro w
    simp only [List.foldl_cons]
    by_cases hma : m = a
    · subst hma
      rcases ih (updateChar w m (allyCleanupOnKill t)) with h | h <;> rw [h, updateChar_same]
      · right; rfl
      · right; exact allyCleanupOnKill_idem t (w m)
    · rcases ih (updateChar w a (allyCleanupOnKill t)) with h | h <;>
        rw [h, updateChar_ne _ _ _ _ hma]
      · left; rfl
      · right; rfl

lemma foldl_cleanup_post (l : List CharId) (t m : CharId) (hm : m ∈ l) :
    ∀ w : World,
      t ∉ ((l.foldl (fun w a => updateChar w a (allyCleanupOnKill t)) w) m).inRangeTargets
      ∧ ((l.foldl (fun w a => updateChar w a (allyCleanupOnKill t)) w) m).lockedOnTarget
          ≠ some t := by
  induction l with
  | nil => cases hm
  | cons a l ih =>
    intro w
    by_cases h : m ∈ l
    · simpa using ih h _
    · have ha : m = a := by
        rcases List.mem_cons.mp hm with h1 | h1
        · exact h1
        · exact absurd h1 h
      simp only [List.foldl_cons]
      rw [foldl_cleanup_not_mem _ _ _ h]
      subst ha
      rw [updateChar_same]
      exact ⟨allyCleanupOnKill_not_mem t _, allyCleanupOnKill_lockedOn t _⟩

lemma updateChar_field {α : Type} (w : World) (i j : CharId) (f : CharState → CharState)
    (g : CharState → α) (hf : ∀ c, g (f c) = g c) :
    g ((updateChar w i f) j) = g (w j) := by
  unfold updateChar
  split_ifs <;> simp [hf]

lemma foldl_cleanup_field {α : Type} (l : List CharId) (t m : CharId) (w : World)
    (g : CharState → α) (hg : ∀ c, g (allyCleanupOnKill t c) = g c) :
    g ((l.foldl (fun w a => updateChar w a (allyCleanupOnKill t)) w) m) = g (w m) := by
  rcases foldl_cleanup_eq_or l t m w with h | h <;> rw [h]
  exact hg _

/-- Shape of `receiveDamage` when the source is already dead or dying. -/
lemma receiveDamage_eq_guard (allies : CharId → List CharId) (w : World)
    (src tgt : CharId) (damage : Int)
    (h : (w src).isSetToKill = true ∨ (w src).isKilled = true) :
    receiveDamage allies w src tgt damage = (w, false) := by
  have hg : ((w src).isSetToKill || (w src).isKilled) = true := by
    rcases h with h | h <;> simp [h]
  unfold receiveDamage
  rw [if_pos (by simpa using hg)]

/-- Shape of `receiveDamage` when the receiver is invincible. -/
lemma receiveDamage_eq_invincible (allies : CharId → List CharId) (w : World)
    (src tgt : CharId) (damage : Int)
    (h1 : (w src).isSetToKill = false) (h2 : (w src).isKilled = false)
    (h3 : (w tgt).isInvincible = true) :
    receiveDamage allies w src tgt damage = (w, true) := by
  unfold receiveDamage
  rw [if_neg (by simp [h1, h2]), if_pos (by simpa using h3)]

/-- Shape of `receiveDamage` in the surviving (non-lethal) branch. -/
lemma receiveDamage_eq_noKill (allies : CharId → List CharId) (w : World)
    (src tgt : CharId) (damage : Int)
    (h1 : (w src).isSetToKill = false) (h2 : (w src).isKilled = false)
    (h3 : (w tgt).isInvincible = false) (h4 : 0 < (w tgt).health - damage) :
    (receiveDamage allies w src tgt damage).1
      = updateChar w tgt
          (fun c => { c with health := c.health - damage, isTakingDamage := true }) := by
  unfold receiveDamage
  rw [if_neg (by simp [h1, h2]), if_neg (by simp [h3])]
  simp only [updateChar_same]
  rw [if_neg (by simpa using not_le.mpr h4)]

/-- Shape of `receiveDamage` in the kill branch. -/
lemma receiveDamage_eq_kill (allies : CharId → List CharId) (w : World)
    (src tgt : CharId) (damage : Int)
    (h1 : (w src).isSetToKill = false) (h2 : (w src).isKilled = false)
    (h3 : (w tgt).isInvincible = false) (h4 : (w tgt).health - damage ≤ 0) :
    (receiveDamage allies w src tgt damage).1
      = updateChar
          ((allies src).foldl (fun w a => updateChar w a (allyCleanupOnKill tgt))
            (updateChar
              (updateChar
                (updateChar w tgt
                  (fun c => { c with health := c.health - damage, isTakingDamage := true }))
                tgt (fun c => { c with health := 0 }))
              src (fun c => { c with inRangeTargets := c.inRangeTargets.erase tgt })))
          tgt (fun c => { c with bodyDestroyedCategory := true, isSetToKill := true }) := by
  unfold receiveDamage
  rw [if_neg (by simp [h1, h2]), if_neg (by simp [h3])]
  simp only [updateChar_same]
  rw [if_pos (by simpa using h4)]

/-- Fields of the receiver after the kill branch. -/
lemma receiveDamage_kill_tgt (allies : CharId → List CharId) (w : World)
    (src tgt : CharId) (damage : Int)
    (h1 : (w src).isSetToKill = false) (h2 : (w src).isKilled = false)
    (h3 : (w tgt).isInvincible = false) (h4 : (w tgt).health - damage ≤ 0) :
    ((receiveDamage allies w src tgt damage).1 tgt).health = 0
    ∧ ((receiveDamage allies w src tgt damage).1 tgt).isTakingDamage = true
    ∧ ((receiveDamage allies w src tgt damage).1 tgt).isSetToKill = true
    ∧ ((receiveDamage allies w src tgt damage).1 tgt).bodyDestroyedCategory = true
    ∧ ((receiveDamage allies w src tgt damage).1 tgt).fullHealth = (w tgt).fullHealth := by
  rw [receiveDamage_eq_kill allies w src tgt damage h1 h2 h3 h4, updateChar_same]
  refine ⟨?_, ?_, rfl, rfl, ?_⟩
  · dsimp only
    rw [foldl_cleanup_field _ _ _ _ CharState.health (allyCleanupOnKill_health tgt)]
    simp only [updateChar]
    split_ifs <;> rfl
  · dsimp only
    rw [foldl_cleanup_field _ _ _ _ CharState.isTakingDamage (allyCleanupOnKill_isTakingDamage tgt)]
    simp only [updateChar]
    split_ifs <;> rfl
  · dsimp only
    rw [foldl_cleanup_field _ _ _ _ CharState.fullHealth (allyCleanupOnKill_fullHealth tgt)]
    simp only [updateChar]
    split_ifs <;> rfl

/-- The receiver's health after `receiveDamage` is either untouched (a guard
fired) or the clamped decrement. -/
lemma receiveDamage_tgt_health_cases (allies : CharId → List CharId) (w : World)
    (src tgt : CharId) (damage : Int) :
    ((receiveDamage allies w src tgt damage).1 tgt).health = (w tgt).health
    ∨ ((receiveDamage allies w src tgt damage).1 tgt).health
        = max 0 ((w tgt).health - damage) := by
  by_cases hg : (w src).isSetToKill = true ∨ (w src).isKilled = true
  · left; rw [receiveDamage_eq_guard allies w src tgt damage hg]
  · push_neg at hg
    have h1 : (w src).isSetToKill = false := by simpa using hg.1
    have h2 : (w src).isKilled = false := by simpa using hg.2
    by_cases h3 : (w tgt).isInvincible = true
    · left; rw [receiveDamage_eq_invincible allies w src tgt damage h1 h2 h3]
    · have h3f : (w tgt).isInvincible = false := by simpa using h3
      by_cases h4 : (w tgt).health - damage ≤ 0
      · right
        rw [(receiveDamage_kill_tgt allies w src tgt damage h1 h2 h3f h4).1]
        omega
      · right
        rw [receiveDamage_eq_noKill allies w src tgt damage h1 h2 h3f (by omega),
            updateChar_same]
        show (w tgt).health - damage = _
        omega

/-- The receiver's `fullHealth` is never changed by `receiveDamage`. -/
lemma receiveDamage_tgt_fullHealth (allies : CharId → List CharId) (w : World)
    (src tgt : CharId) (damage : Int) :
    ((receiveDamage allies w src tgt damage).1 tgt).fullHealth = (w tgt).fullHealth := by
  by_cases hg : (w src).isSetToKill = true ∨ (w src).isKilled = true
  · rw [receiveDamage_eq_guard allies w src tgt damage hg]
  · push_neg at hg
    have h1 : (w src).isSetToKill = false := by simpa using hg.1
    have h2 : (w src).isKilled = false := by simpa using hg.2
    by_cases h3 : (w tgt).isInvincible = true
    · rw [receiveDamage_eq_invincible allies w src tgt damage h1 h2 h3]
    · have h3f : (w tgt).isInvincible = false := by simpa using h3
      by_cases h4 : (w tgt).health - damage ≤ 0
      · exact (receiveDamage_kill_tgt allies w src tgt damage h1 h2 h3f h4).2.2.2.2
      · rw [receiveDamage_eq_noKill allies w src tgt damage h1 h2 h3f (by omega),
            updateChar_same]

/-- The receiver's set-to-kill flag is never cleared by `receiveDamage`. -/
lemma receiveDamage_tgt_setToKill_mono (allies : CharId → List CharId) (w : World)
    (src tgt : CharId) (damage : Int)
    (h : (w tgt).isSetToKill = true) :
    ((receiveDamage allies w src tgt damage).1 tgt).isSetToKill = true := by
  by_cases hg : (w src).isSetToKill = true ∨ (w src).isKilled = true
  · rw [receiveDamage_eq_guard allies w src tgt damage hg]; exact h
  · push_neg at hg
    have h1 : (w src).isSetToKill = false := by simpa using hg.1
    have h2 : (w src).isKilled = false := by simpa using hg.2
    by_cases h3 : (w tgt).isInvincible = true
    · rw [receiveDamage_eq_invincible allies w src tgt damage h1 h2 h3]; exact h
    · have h3f : (w tgt).isInvincible = false := by simpa using h3
      by_cases h4 : (w tgt).health - damage ≤ 0
      · exact (receiveDamage_kill_tgt allies w src tgt damage h1 h2 h3f h4).2.2.1
      · rw [receiveDamage_eq_noKill allies w src tgt damage h1 h2 h3f (by omega),
            updateChar_same]
        exact h

lemma updateStatsRegen_tgt_health (w : World) (tgt : CharId) (dh dm ds : Int) :
    ((updateStatsRegen w tgt dh dm ds) tgt).health = (w tgt).health
    ∨ ((updateStatsRegen w tgt dh dm ds) tgt).health
        = (if (w tgt).health + dh > (w tgt).fullHealth then (w tgt).fullHealth
           else (w tgt).health + dh) := by
  unfold updateStatsRegen
  by_cases hg : (!(w tgt).isShownOnMap || (w tgt).isKilled) = true
  · rw [if_pos hg]; left; rfl
  · rw [if_neg hg, updateChar_same]
    right
    rfl

lemma updateStatsRegen_tgt_fullHealth (w : World) (tgt : CharId) (dh dm ds : Int) :
    ((updateStatsRegen w tgt dh dm ds) tgt).fullHealth = (w tgt).fullHealth := by
  unfold updateStatsRegen
  by_cases hg : (!(w tgt).isShownOnMap || (w tgt).isKilled) = true
  · rw [if_pos hg]
  · rw [if_neg hg, updateChar_same]
    rfl

lemma updateStatsRegen_tgt_setToKill (w : World) (tgt : CharId) (dh dm ds : Int) :
    ((updateStatsRegen w tgt dh dm ds) tgt).isSetToKill = (w tgt).isSetToKill := by
  unfold updateStatsRegen
  by_cases hg : (!(w tgt).isShownOnMap || (w tgt).isKilled) = true
  · rw [if_pos hg]
  · rw [if_neg hg, updateChar_same]
    rfl

lemma useItemStats_health (c : CharState) (cp : ConsumableProfile) :
    (useItemStats c cp).health
      = (if c.health + cp.restoreHealth > c.fullHealth then c.fullHealth
         else c.health + cp.restoreHealth) := by
  simp only [useItemStats]
  split_ifs <;> rfl

lemma useItemStats_fullHealth (c : CharState) (cp : ConsumableProfile) :
    (useItemStats c cp).fullHealth = c.fullHealth := by
  simp only [useItemStats]
  split_ifs <;> rfl

lemma useItemStats_setToKill (c : CharState) (cp : ConsumableProfile) :
    (useItemStats c cp).isSetToKill = c.isSetToKill := by
  simp only [useItemStats]
  split_ifs <;> rfl

/-- Single-operation facts for the health invariant. -/
lemma applyCombatOp_tgt (allies : CharId → List CharId) (tgt : CharId)
    (w : World) (op : CombatOp) :
    ((applyCombatOp allies tgt w op) tgt).fullHealth = (w tgt).fullHealth
    ∧ ((w tgt).isSetToKill = true →
        ((applyCombatOp allies tgt w op) tgt).isSetToKill = true)
    ∧ (op.healthNonneg = true → 0 ≤ (w tgt).health →
        (w tgt).health ≤ (w tgt).fullHealth →
        0 ≤ ((applyCombatOp allies tgt w op) tgt).health
        ∧ ((applyCombatOp allies tgt w op) tgt).health ≤ (w tgt).fullHealth)
    ∧ (op.isNonnegDamage = true → 0 ≤ (w tgt).health →
        ((applyCombatOp allies tgt w op) tgt).health ≤ (w tgt).health) := by
  cases op with
  | damage src d =>
    refine ⟨receiveDamage_tgt_fullHealth allies w src tgt d,
            receiveDamage_tgt_setToKill_mono allies w src tgt d, ?_, ?_⟩
    · intro hnn hl hu
      have hd : 0 ≤ d := by simpa [CombatOp.healthNonneg] using hnn
      simp only [applyCombatOp]
      rcases receiveDamage_tgt_health_cases allies w src tgt d with h | h <;> rw [h] <;> omega
    · intro hnn hl
      have hd : 0 ≤ d := by simpa [CombatOp.isNonnegDamage] using hnn
      simp only [applyCombatOp]
      rcases receiveDamage_tgt_health_cases allies w src tgt d with h | h <;> rw [h] <;> omega
  | regenTick dh dm ds =>
    refine ⟨updateStatsRegen_tgt_fullHealth w tgt dh dm ds, ?_, ?_, ?_⟩
    · intro h
      show ((updateStatsRegen w tgt dh dm ds) tgt).isSetToKill = true
      rw [updateStatsRegen_tgt_setToKill w tgt dh dm ds]
      exact h
    · intro hnn hl hu
      have hd : 0 ≤ dh := by simpa [CombatOp.healthNonneg] using hnn
      simp only [applyCombatOp]
      rcases updateStatsRegen_tgt_health w tgt dh dm ds with h | h <;> rw [h]
      · omega
      · split_ifs <;> omega
    · intro hnn hl
      simp [CombatOp.isNonnegDamage] at hnn
  | consume cp =>
    refine ⟨?_, ?_, ?_, ?_⟩
    · show CharState.fullHealth (updateChar _ _ _ _) = _
      rw [updateChar_same, useItemStats_fullHealth]
    · intro h
      show CharState.isSetToKill (updateChar _ _ _ _) = true
      rw [updateChar_same, useItemStats_setToKill]
      exact h
    · intro hnn hl hu
      have hd : 0 ≤ cp.restoreHealth := by simpa [CombatOp.healthNonneg] using hnn
      show 0 ≤ CharState.health (updateChar _ _ _ _)
        ∧ CharState.health (updateChar _ _ _ _) ≤ _
      rw [updateChar_same, useItemStats_health]
      constructor <;> split_ifs <;> omega
    · intro hnn hl
      simp [CombatOp.isNonnegDamage] at hnn

/-- The health invariant carried through an operation sequence. -/
lemma runCombatOps_healthInv (allies : CharId → List CharId) (tgt : CharId)
    (ops : List CombatOp) : ∀ w : World,
    (∀ op ∈ ops, op.healthNonneg = true) →
    0 ≤ (w tgt).health → (w tgt).health ≤ (w tgt).fullHealth →
    ((runCombatOps allies tgt w ops) tgt).fullHealth = (w tgt).fullHealth
    ∧ (0 ≤ ((runCombatOps allies tgt w ops) tgt).health
        ∧ ((runCombatOps allies tgt w ops) tgt).health ≤ (w tgt).fullHealth)
    ∧ ((w tgt).isSetToKill = true →
        ((runCombatOps allies tgt w ops) tgt).isSetToKill = true)
    ∧ ((∀ op ∈ ops, op.isNonnegDamage = true) →
        ((runCombatOps allies tgt w ops) tgt).health ≤ (w tgt).health) := by
  induction ops with
  | nil =>
    intro w _ hl hu
    exact ⟨rfl, ⟨hl, hu⟩, fun h => h, fun _ => le_refl _⟩
  | cons op rest ih =>
    intro w hops hl hu
    have hop := applyCombatOp_tgt allies tgt w op
    have hnn : op.healthNonneg = true := hops op (List.mem_cons_self _ _)
    have hb := hop.2.2.1 hnn hl hu
    have hrest : ∀ o ∈ rest, o.healthNonneg = true :=
      fun o ho => hops o (List.mem_cons_of_mem _ ho)
    have e : runCombatOps allies tgt w (op :: rest)
        = runCombatOps allies tgt (applyCombatOp allies tgt w op) rest := rfl
    rw [e]
    have hIH := ih (applyCombatOp allies tgt w op) hrest hb.1
      (le_of_le_of_eq hb.2 hop.1.symm)
    refine ⟨by rw [hIH.1, hop.1], ⟨hIH.2.1.1, ?_⟩, ?_, ?_⟩
    · exact le_trans hIH.2.1.2 (le_of_eq hop.1)
    · intro h
      exact hIH.2.2.1 (hop.2.1 h)
    · intro hd
      have hd0 : op.isNonnegDamage = true := hd op (List.mem_cons_self _ _)
      have hdrest : ∀ o ∈ rest, o.isNonnegDamage = true :=
        fun o ho => hd o (List.mem_cons_of_mem _ ho)
      exact le_trans (le_of_le_of_eq (hIH.2.2.2 hdrest) rfl) (hop.2.2.2 hd0 hl)

lemma getItemAmount_eq (st : InventoryState) (key : String) :
    getItemAmount st key = ((mapperFind st.itemMapper key).map ItemEntry.amount).getD 0 := by
  unfold getItemAmount
  cases mapperFind st.itemMapper key <;> rfl

lemma mapperFind_mapperSet (m : List ItemEntry) (key key' : String) (a : Int) :
    mapperFind (mapperSet m key a) key'
      = (mapperFind m key').map
          (fun en => if en.info.jsonFileName = key then { en with amount := a } else en) := by
  induction m with
  | nil => rfl
  | cons en m ih =>
    simp only [mapperSet, List.map_cons, mapperFind] at *
    have hname : ((if en.info.jsonFileName = key then { en with amount := a } else en)
        : ItemEntry).info.jsonFileName = en.info.jsonFileName := by
      split_ifs <;> rfl
    by_cases h1 : en.info.jsonFileName = key'
    · rw [List.find?_cons_of_pos _ (by simp only [hname, decide_eq_true_eq]; exact h1),
          List.find?_cons_of_pos _ (by simpa using h1)]
      rfl
    · rw [List.find?_cons_of_neg _ (by simp only [hname, decide_eq_true_eq]; exact h1),
          List.find?_cons_of_neg _ (by simpa using h1)]
      exact ih

lemma mapperFind_mapperErase_self (m : List ItemEntry) (key : String) :
    mapperFind (mapperErase m key) key = none := by
  induction m with
  | nil => rfl
  | cons en m ih =>
    simp only [mapperErase, List.filter_cons, mapperFind] at *
    by_cases h : en.info.jsonFileName = key
    · rw [if_neg (by simp [h])]
      exact ih
    · rw [if_pos (by simp [h]), List.find?_cons_of_neg _ (by simp [h])]
      exact ih

lemma mapperCount_mapperSet (m : List ItemEntry) (key key' : String) (a : Int) :
    mapperCount (mapperSet m key a) key' = mapperCount m key' := by
  unfold mapperCount mapperSet
  rw [List.filter_map, List.length_map]
  congr 1
  apply List.filter_congr
  intro en _
  simp only [Function.comp_apply]
  split_ifs <;> rfl

lemma mapperCount_mapperErase_self (m : List ItemEntry) (key : String) :
    mapperCount (mapperErase m key) key = 0 := by
  induction m with
  | nil => rfl
  | cons en m ih =>
    simp only [mapperErase, List.filter_cons, mapperCount] at *
    by_cases h : en.info.jsonFileName = key
    · rw [if_neg (by simp [h])]
      exact ih
    · rw [if_pos (by simp [h])]
      simpa [h] using ih

lemma mapperFind_none_count (m : List ItemEntry) (key : String)
    (h : mapperFind m key = none) : mapperCount m key = 0 := by
  induction m with
  | nil => rfl
  | cons en m ih =>
    simp only [mapperFind] at h ih
    by_cases h1 : en.info.jsonFileName = key
    · rw [List.find?_cons_of_pos _ (by simp [h1])] at h
      cases h
    · rw [List.find?_cons_of_neg _ (by simp [h1])] at h
      simpa [mapperCount, List.filter_cons, h1] using ih h

lemma addItem_slots (st : InventoryState) (it : ItemInfo) (n : Int) :
    (addItem st it n).equipmentSlots = st.equipmentSlots := by
  unfold addItem
  split_ifs
  · rfl
  · cases mapperFind st.itemMapper it.jsonFileName <;> rfl

lemma removeItem_slots (st : InventoryState) (it : ItemInfo) (n : Int) :
    (removeItem st it n).equipmentSlots = st.equipmentSlots := by
  unfold removeItem
  cases mapperFind st.itemMapper it.jsonFileName with
  | none => rfl
  | some en =>
    dsimp only
    split_ifs
    · rfl
    · cases en.info.equipmentType with
      | none => rfl
      | some et =>
        dsimp only
        split_ifs <;> rfl
    · rfl

lemma getItemAmount_addItem (st : InventoryState) (it : ItemInfo) (n : Int) :
    getItemAmount (addItem st it n) it.jsonFileName
      = getItemAmount st it.jsonFileName + n := by
  by_cases h0 : n = 0
  · simp [addItem, h0]
  · unfold addItem
    rw [if_neg h0]
    cases hf : mapperFind st.itemMapper it.jsonFileName with
    | none =>
      rw [getItemAmount_eq, getItemAmount_eq, hf]
      have h1 : mapperFind ({ info := it, amount := n } :: st.itemMapper) it.jsonFileName
          = some { info := it, amount := n } := by
        unfold mapperFind
        exact List.find?_cons_of_pos _ (by simp)
      dsimp only
      rw [h1]
      simp
    | some en =>
      rw [getItemAmount_eq, getItemAmount_eq, hf]
      dsimp only
      rw [mapperFind_mapperSet, hf]
      have hname : en.info.jsonFileName = it.jsonFileName := by
        have := List.find?_some hf
        simpa using this
      simp [hname]

lemma mapperCount_addItem_le (st : InventoryState) (it : ItemInfo) (n : Int)
    (h : mapperCount st.itemMapper it.jsonFileName ≤ 1) :
    mapperCount (addItem st it n).itemMapper it.jsonFileName ≤ 1 := by
  by_cases h0 : n = 0
  · simpa [addItem, h0] using h
  · unfold addItem
    rw [if_neg h0]
    cases hf : mapperFind st.itemMapper it.jsonFileName with
    | none =>
      dsimp only
      have h1 : mapperCount st.itemMapper it.jsonFileName = 0 :=
        mapperFind_none_count _ _ hf
      unfold mapperCount at h1 ⊢
      rw [List.filter_cons, if_pos (by simp)]
      simp [h1]
    | some en =>
      dsimp only
      rw [mapperCount_mapperSet]
      exact h

/-- `removeItem` with a genuine amount not exceeding the owned quantity
decrements the tracked amount. -/
lemma getItemAmount_removeItem (st : InventoryState) (it : ItemInfo) (n : Int)
    (h1 : 0 ≤ n) (h2 : n ≤ getItemAmount st it.jsonFileName) :
    getItemAmount (removeItem st it n) it.jsonFileName
      = getItemAmount st it.jsonFileName - n := by
  unfold removeItem
  cases hf : mapperFind st.itemMapper it.jsonFileName with
  | none =>
    have h3 : getItemAmount st it.jsonFileName = 0 := by
      rw [getItemAmount_eq, hf]; rfl
    have h4 : n = 0 := by omega
    rw [h3, h4]
    simp
  | some en =>
    have hown : getItemAmount st it.jsonFileName = en.amount := by
      rw [getItemAmount_eq, hf]; rfl
    by_cases h0 : n = 0
    · simp only []
      rw [if_pos h0, h0]
      omega
    · simp only []
      rw [if_neg h0]
      by_cases hz : en.amount - n = 0
      · rw [if_pos hz]
        cases het : en.info.equipmentType with
        | none =>
          dsimp only
          rw [getItemAmount_eq, mapperFind_mapperErase_self]
          simp [hown]
          omega
        | some et =>
          dsimp only
          split_ifs with hslot
          · rw [getItemAmount_eq]
            dsimp only
            rw [mapperFind_mapperSet, hf]
            have hname : en.info.jsonFileName = it.jsonFileName := by
              have := List.find?_some hf
              simpa using this
            simp [hname, hown]
          · rw [getItemAmount_eq, mapperFind_mapperErase_self]
            simp [hown]
            omega
      · rw [if_neg hz, getItemAmount_eq]
        dsimp only
        rw [mapperFind_mapperSet, hf]
        have hname : en.info.jsonFileName = it.jsonFileName := by
          have := List.find?_some hf
          simpa using this
        simp [hname, hown]

lemma mapperCount_removeItem_le (st : InventoryState) (it : ItemInfo) (n : Int)
    (h : mapperCount st.itemMapper it.jsonFileName ≤ 1) :
    mapperCount (removeItem st it n).itemMapper it.jsonFileName ≤ 1 := by
  unfold removeItem
  cases hf : mapperFind st.itemMapper it.jsonFileName with
  | none => exact h
  | some en =>
    by_cases h0 : n = 0
    · simp only []
      rw [if_pos h0]
      exact h
    · simp only []
      rw [if_neg h0]
      by_cases hz : en.amount - n = 0
      · rw [if_pos hz]
        cases het : en.info.equipmentType with
        | none =>
          dsimp only
          rw [mapperCount_mapperErase_self]
          omega
        | some et =>
          dsimp only
          split_ifs with hslot
          · rw [mapperCount_mapperSet]
            exact h
          · rw [mapperCount_mapperErase_self]
            omega
      · rw [if_neg hz]
        dsimp only
        rw [mapperCount_mapperSet]
        exact h

/-- The net-quantity invariant carried through an addItem/removeItem
sequence for one item identifier. -/
lemma runInvOps_net (it : ItemInfo) : ∀ (ops : List InvOp) (st : InventoryState),
    validRemovals it st ops = true →
    mapperCount st.itemMapper it.jsonFileName ≤ 1 →
    getItemAmount (runInvOps it st ops) it.jsonFileName
        = getItemAmount st it.jsonFileName + invNet ops
    ∧ mapperCount (runInvOps it st ops).itemMapper it.jsonFileName ≤ 1 := by
  intro ops
  induction ops with
  | nil =>
    intro st _ hc
    exact ⟨by simp [runInvOps, invNet], hc⟩
  | cons op rest ih =>
    intro st hv hc
    cases op with
    | addOp n =>
      have hv' : validRemovals it (addItem st it n) rest = true := by
        simpa [validRemovals] using hv
      have e : runInvOps it st (InvOp.addOp n :: rest)
          = runInvOps it (addItem st it n) rest := rfl
      rw [e]
      have hIH := ih (addItem st it n) hv' (mapperCount_addItem_le st it n hc)
      refine ⟨?_, hIH.2⟩
      rw [hIH.1, getItemAmount_addItem]
      simp only [invNet, invOpNet, List.map_cons, List.sum_cons]
      ring
    | removeOp n =>
      have hv' := hv
      simp only [validRemovals, Bool.and_eq_true, decide_eq_true_eq] at hv'
      obtain ⟨⟨hn0, hn1⟩, hrest⟩ := hv'
      have e : runInvOps it st (InvOp.removeOp n :: rest)
          = runInvOps it (removeItem st it n) rest := rfl
      rw [e]
      have hIH := ih (removeItem st it n) hrest (mapperCount_removeItem_le st it n hc)
      refine ⟨?_, hIH.2⟩
      rw [hIH.1, getItemAmount_removeItem st it n hn0 hn1]
      simp only [invNet, invOpNet, List.map_cons, List.sum_cons]
      ring

/-- Full specification of the addExp while-loop, by strong induction on the
experience value. -/
lemma addExpLoop_spec (tbl : Int → Int) (hpos : ∀ l, 0 < tbl l) :
    ∀ (n : Nat) (e l : Int), e.toNat ≤ n →
      (addExpLoop tbl hpos e l).1 < tbl (addExpLoop tbl hpos e l).2
      ∧ l ≤ (addExpLoop tbl hpos e l).2
      ∧ (addExpLoop tbl hpos e l).1
          = e - ∑ i in Finset.range ((addExpLoop tbl hpos e l).2 - l).toNat, tbl (l + i) := by
  intro n
  induction n with
  | zero =>
    intro e l he
    rw [addExpLoop]
    rw [dif_neg (by have := hpos l; omega)]
    refine ⟨?_, le_refl l, by simp⟩
    dsimp only
    have := hpos l
    omega
  | succ n ih =>
    intro e l he
    rw [addExpLoop]
    by_cases h : tbl l ≤ e
    · rw [dif_pos h]
      have hrec := ih (e - tbl l) (l + 1) (by have := hpos l; omega)
      refine ⟨hrec.1, by have := hrec.2.1; omega, ?_⟩
      have hk : ((addExpLoop tbl hpos (e - tbl l) (l + 1)).2 - l).toNat
          = ((addExpLoop tbl hpos (e - tbl l) (l + 1)).2 - (l + 1)).toNat + 1 := by
        have := hrec.2.1
        omega
      rw [hk, Finset.sum_range_succ']
      have hsum : ∑ i in Finset.range
            ((addExpLoop tbl hpos (e - tbl l) (l + 1)).2 - (l + 1)).toNat,
            tbl (l + (↑i + 1))
          = ∑ i in Finset.range
            ((addExpLoop tbl hpos (e - tbl l) (l + 1)).2 - (l + 1)).toNat,
            tbl ((l + 1) + ↑i) := by
        apply Finset.sum_congr rfl
        intro i _
        congr 1
        ring
      have hcast : ∀ i : ℕ, tbl (l + ↑(i + 1)) = tbl (l + (↑i + 1)) :=
        fun i => congrArg tbl (by push_cast; ring)
      simp only [hcast]
      rw [hsum, hrec.2.2]
      simp only [Nat.cast_zero, add_zero]
      omega
    · rw [dif_neg h]
      refine ⟨?_, le_refl l, by simp⟩
      dsimp only
      omega

/-! ## Claim theorems -/

/-- C2: starting from a state that does not own the item, after any sequence
of addItem/removeItem calls for its identifier in which every removal removes
a genuine (nonnegative) amount not exceeding the quantity owned at that
point, at most one canonical instance of the identifier exists in the item
store, its tracked quantity equals the sum of added amounts minus the sum of
removed amounts, and whenever that net is nonzero the canonical instance is
still present. -/
theorem itemNetQuantityDedup (st : InventoryState) (it : ItemInfo) (ops : List InvOp)
    (habs : mapperFind st.itemMapper it.jsonFileName = none)
    (hvalid : validRemovals it st ops = true) :
    mapperCount (runInvOps it st ops).itemMapper it.jsonFileName ≤ 1
    ∧ getItemAmount (runInvOps it st ops) it.jsonFileName = invNet ops
    ∧ (invNet ops ≠ 0 →
        (mapperFind (runInvOps it st ops).itemMapper it.jsonFileName).isSome = true) := by
  have hc : mapperCount st.itemMapper it.jsonFileName ≤ 1 := by
    rw [mapperFind_none_count _ _ habs]
    omega
  have h0 : getItemAmount st it.jsonFileName = 0 := by
    rw [getItemAmount_eq, habs]
    rfl
  have H := runInvOps_net it ops st hvalid hc
  have hamount : getItemAmount (runInvOps it st ops) it.jsonFileName = invNet ops := by
    rw [H.1, h0]
    ring
  refine ⟨H.2, hamount, ?_⟩
  intro hnz
  by_contra hns
  have hnone : mapperFind (runInvOps it st ops).itemMapper it.jsonFileName = none := by
    cases hfin : mapperFind (runInvOps it st ops).itemMapper it.jsonFileName with
    | none => rfl
    | some en =>
      rw [hfin] at hns
      simp at hns
  have hz : getItemAmount (runInvOps it st ops) it.jsonFileName = 0 := by
    rw [getItemAmount_eq, hnone]
    rfl
  rw [hamount] at hz
  exact hnz hz

theorem itemNetQuantityDedup_witness :
    getItemAmount (runInvOps { jsonFileName := "potion", itemType := 0, equipmentType := none }
        { itemMapper := [], inventory := fun _ => ∅, equipmentSlots := fun _ => none }
        [InvOp.addOp 3, InvOp.addOp 2, InvOp.removeOp 4]) "potion" = 1
    ∧ (mapperFind (runInvOps { jsonFileName := "potion", itemType := 0, equipmentType := none }
        { itemMapper := [], inventory := fun _ => ∅, equipmentSlots := fun _ => none }
        [InvOp.addOp 3, InvOp.addOp 2, InvOp.removeOp 4]).itemMapper "potion").isSome = true := by
  have h := itemNetQuantityDedup
    { itemMapper := [], inventory := fun _ => ∅, equipmentSlots := fun _ => none }
    { jsonFileName := "potion", itemType := 0, equipmentType := none }
    [InvOp.addOp 3, InvOp.addOp 2, InvOp.removeOp 4] rfl (by decide)
  refine ⟨?_, h.2.2 (by decide)⟩
  have h2 := h.2.1
  simpa [invNet, invOpNet] using h2

/-- C7 counterexample: with two copies of the sword owned, `equip(sword)`
places the sword in the WEAPON slot while the canonical sword instance also
remains in the inventory (its quantity only drops from 2 to 1): an item
instance can sit in an equipment slot and in the inventory simultaneously,
refuting the claimed mutual exclusion. -/
theorem equipSlotInventoryOverlap :
    (equip (addItem { itemMapper := [], inventory := fun _ => ∅, equipmentSlots := fun _ => none }
              { jsonFileName := "sword", itemType := 0, equipmentType := some 0 } 2)
           { jsonFileName := "sword", itemType := 0, equipmentType := some 0 }).equipmentSlots 0
        = some "sword"
    ∧ "sword" ∈ (equip (addItem { itemMapper := [], inventory := fun _ => ∅, equipmentSlots := fun _ => none }
              { jsonFileName := "sword", itemType := 0, equipmentType := some 0 } 2)
           { jsonFileName := "sword", itemType := 0, equipmentType := some 0 }).inventory 0
    ∧ getItemAmount (equip (addItem { itemMapper := [], inventory := fun _ => ∅, equipmentSlots := fun _ => none }
              { jsonFileName := "sword", itemType := 0, equipmentType := some 0 } 2)
           { jsonFileName := "sword", itemType := 0, equipmentType := some 0 }) "sword" = 1 := by
  refine ⟨by decide, by decide, by decide⟩

/-- C7 (amended): `equip(e)` with the slot occupied by another equipment `d`
(whose canonical instance is in the item store) first returns `d` to the
inventory — its tracked quantity incremented by 1 and its identifier indexed
under its category — then places `e` in the slot and removes one count of `e`;
when exactly one copy of `e` was owned the count reaches 0, so `e` leaves the
inventory while its canonical instance survives in the item store (amount 0)
because it is equipped.  Slot/inventory exclusivity holds only in this
single-copy case; with spare copies the instance stays in both (see the
counterexample). -/
theorem equipSwapInventoryExchange
    (st : InventoryState) (e : ItemInfo) (t : Nat) (dName : String) (den : ItemEntry)
    (he : e.equipmentType = some t)
    (hslot : st.equipmentSlots t = some dName)
    (hdfind : mapperFind st.itemMapper dName = some den)
    (hdname : den.info.jsonFileName = dName)
    (hefind : mapperFind st.itemMapper e.jsonFileName = some { info := e, amount := 1 })
    (hne : dName ≠ e.jsonFileName) :
    (equip st e).equipmentSlots t = some e.jsonFileName
    ∧ getItemAmount (equip st e) dName = den.amount + 1
    ∧ dName ∈ (equip st e).inventory den.info.itemType
    ∧ e.jsonFileName ∉ (equip st e).inventory e.itemType
    ∧ mapperFind (equip st e).itemMapper e.jsonFileName
        = some { info := e, amount := 0 } := by
  have hene : e.jsonFileName ≠ dName := fun h => hne h.symm
  have h1 : unequip st t
      = addItem { st with equipmentSlots := fun t' => if t' = t then none
                          else st.equipmentSlots t' } den.info 1 := by
    unfold unequip
    rw [hslot]
    dsimp only
    rw [hdfind]
  have h2 : addItem { st with equipmentSlots := fun t' => if t' = t then none
                      else st.equipmentSlots t' } den.info 1
      = { itemMapper := mapperSet st.itemMapper dName (den.amount + 1),
          inventory := invInsert st.inventory den.info.itemType dName,
          equipmentSlots := fun t' => if t' = t then none else st.equipmentSlots t' } := by
    unfold addItem
    rw [if_neg (by norm_num)]
    dsimp only
    rw [hdname, hdfind]
    dsimp only
    rw [hdname]
  have h3 : equip st e
      = removeItem
          { itemMapper := mapperSet st.itemMapper dName (den.amount + 1),
            inventory := invInsert st.inventory den.info.itemType dName,
            equipmentSlots := fun t' => if t' = t then some e.jsonFileName
                              else if t' = t then none else st.equipmentSlots t' }
          e 1 := by
    unfold equip
    rw [he]
    dsimp only
    rw [hslot]
    rw [if_pos (by rfl), h1, h2]
  have hf2 : mapperFind (mapperSet st.itemMapper dName (den.amount + 1)) e.jsonFileName
      = some { info := e, amount := 1 } := by
    rw [mapperFind_mapperSet, hefind]
    simp [hene]
  have h4 : equip st e
      = { itemMapper := mapperSet (mapperSet st.itemMapper dName (den.amount + 1))
            e.jsonFileName 0,
          inventory := invErase (invInsert st.inventory den.info.itemType dName)
            e.itemType e.jsonFileName,
          equipmentSlots := fun t' => if t' = t then some e.jsonFileName
                            else if t' = t then none else st.equipmentSlots t' } := by
    rw [h3]
    unfold removeItem
    dsimp only
    rw [hf2]
    dsimp only
    rw [if_neg (by norm_num), if_pos (by norm_num), he]
    dsimp only
    rw [if_pos (by rw [if_pos rfl])]
    norm_num
  refine ⟨?_, ?_, ?_, ?_, ?_⟩
  · rw [h4]
    dsimp only
    rw [if_pos rfl]
  · rw [h4, getItemAmount_eq]
    dsimp only
    rw [mapperFind_mapperSet, mapperFind_mapperSet, hdfind]
    simp [hdname, hne]
  · rw [h4]
    dsimp only
    unfold invErase invInsert
    by_cases hty : den.info.itemType = e.itemType
    · rw [if_pos hty]
      simp [hne]
    · rw [if_neg hty]
      simp
  · rw [h4]
    dsimp only
    unfold invErase
    rw [if_pos rfl]
    exact Finset.not_mem_erase _ _
  · rw [h4]
    dsimp only
    rw [mapperFind_mapperSet, hf2]
    simp

/-- The dagger-equipped example state for the equip-swap scenario. -/
def swapExampleState : InventoryState :=
  { itemMapper := [{ info := { jsonFileName := "dagger", itemType := 1, equipmentType := some 0 }, amount := 0 },
                   { info := { jsonFileName := "sword", itemType := 1, equipmentType := some 0 }, amount := 1 }],
    inventory := fun t => if t = 1 then {"sword"} else ∅,
    equipmentSlots := fun t => if t = 0 then some "dagger" else none }

def swordInfo : ItemInfo :=
  { jsonFileName := "sword", itemType := 1, equipmentType := some 0 }

theorem equipSwapInventoryExchange_witness :
    (equip swapExampleState swordInfo).equipmentSlots 0 = some "sword"
    ∧ getItemAmount (equip swapExampleState swordInfo) "dagger" = 1
    ∧ "dagger" ∈ (equip swapExampleState swordInfo).inventory 1
    ∧ "sword" ∉ (equip swapExampleState swordInfo).inventory 1 := by
  have h := equipSwapInventoryExchange swapExampleState swordInfo 0 "dagger"
    { info := { jsonFileName := "dagger", itemType := 1, equipmentType := some 0 }, amount := 0 }
    rfl rfl (by decide) rfl (by decide) (by decide)
  exact ⟨h.1, h.2.1, h.2.2.1, h.2.2.2.1⟩

/-- C1 counterexample: three concrete violations of the claim as stated.
A killed character (isKilled and isSetToKill both set, health 0) that uses a
consumable restoring 5 health ends with health 5 > 0; a set-to-kill character
(KILLED animation still playing, isKilled not yet set) regains 5 health from
the periodic regeneration step, which only checks isKilled; and a damage
receipt of -100 on a healthy character pushes health to 110 > fullHealth = 50
(receiveDamage has no upper clamp). -/
theorem healthRaisedAfterKilled :
    ((runCombatOps (fun _ => []) 0
        (fun _ => { baseChar with health := 0, isKilled := true, isSetToKill := true })
        [CombatOp.consume { restoreHealth := 5, restoreMagicka := 0, restoreStamina := 0,
                            bonusPhysicalDamage := 0, bonusStr := 0, bonusDex := 0,
                            bonusInt := 0, bonusLuk := 0, bonusMoveSpeed := 0,
                            bonusJumpHeight := 0 }]) 0).health = 5
    ∧ ((runCombatOps (fun _ => []) 0
        (fun _ => { baseChar with health := 0, isSetToKill := true })
        [CombatOp.regenTick 5 0 0]) 0).health = 5
    ∧ ((runCombatOps (fun _ => []) 0
        (fun i => if i = 1 then baseChar
                  else { baseChar with health := 10, fullHealth := 50 })
        [CombatOp.damage 1 (-100)]) 0).health = 110 := by
  refine ⟨by decide, by decide, by decide⟩

/-- C1 (amended): provided all damage amounts, regeneration deltas and
consumable restore-health values are nonnegative, health stays within
[0, fullHealth] (fullHealth itself is never changed); the set-to-kill flag,
once set, is never cleared by any of these operations; and under damage
receipts alone health never increases, so health that has reached 0 stays at
0.  (Regeneration before the isKilled flag is set and consumable use are not
gated by the killed flags and can raise health above 0 — see the
counterexample.) -/
theorem healthClampAndKillMonotonic (allies : CharId → List CharId)
    (tgt : CharId) (w : World) (ops : List CombatOp)
    (hops : ∀ op ∈ ops, op.healthNonneg = true)
    (hl : 0 ≤ (w tgt).health) (hu : (w tgt).health ≤ (w tgt).fullHealth) :
    (0 ≤ ((runCombatOps allies tgt w ops) tgt).health
      ∧ ((runCombatOps allies tgt w ops) tgt).health
          ≤ ((runCombatOps allies tgt w ops) tgt).fullHealth)
    ∧ ((w tgt).isSetToKill = true →
        ((runCombatOps allies tgt w ops) tgt).isSetToKill = true)
    ∧ ((∀ op ∈ ops, op.isNonnegDamage = true) →
        ((runCombatOps allies tgt w ops) tgt).health ≤ (w tgt).health)
    ∧ ((∀ op ∈ ops, op.isNonnegDamage = true) → (w tgt).health = 0 →
        ((runCombatOps allies tgt w ops) tgt).health = 0) := by
  have H := runCombatOps_healthInv allies tgt ops w hops hl hu
  refine ⟨⟨H.2.1.1, by rw [H.1]; exact H.2.1.2⟩, H.2.2.1, H.2.2.2, ?_⟩
  intro hd h0
  have h1 := H.2.2.2 hd
  have h2 := H.2.1.1
  omega

theorem healthClampAndKillMonotonic_witness :
    0 ≤ ((runCombatOps (fun _ => []) 0 (fun _ => baseChar)
          [CombatOp.damage 1 5, CombatOp.regenTick 2 0 0,
           CombatOp.consume { restoreHealth := 3, restoreMagicka := 0, restoreStamina := 0,
                              bonusPhysicalDamage := 0, bonusStr := 0, bonusDex := 0,
                              bonusInt := 0, bonusLuk := 0, bonusMoveSpeed := 0,
                              bonusJumpHeight := 0 }]) 0).health
    ∧ ((runCombatOps (fun _ => []) 0 (fun _ => baseChar)
          [CombatOp.damage 1 5, CombatOp.regenTick 2 0 0,
           CombatOp.consume { restoreHealth := 3, restoreMagicka := 0, restoreStamina := 0,
                              bonusPhysicalDamage := 0, bonusStr := 0, bonusDex := 0,
                              bonusInt := 0, bonusLuk := 0, bonusMoveSpeed := 0,
                              bonusJumpHeight := 0 }]) 0).health ≤ 50 := by
  have h := healthClampAndKillMonotonic (fun _ => []) 0 (fun _ => baseChar)
    [CombatOp.damage 1 5, CombatOp.regenTick 2 0 0,
     CombatOp.consume { restoreHealth := 3, restoreMagicka := 0, restoreStamina := 0,
                        bonusPhysicalDamage := 0, bonusStr := 0, bonusDex := 0,
                        bonusInt := 0, bonusLuk := 0, bonusMoveSpeed := 0,
                        bonusJumpHeight := 0 }]
    (by decide) (by decide) (by decide)
  exact ⟨h.1.1, le_of_le_of_eq h.1.2 (by decide)⟩

/-- C3 counterexample: the kill-branch effects do not occur "exactly on the
transition to zero health": with the receiver already at health 0 (and
already set-to-kill from an earlier lethal hit), a further hit from a live
source fires them again — here the source's in-range-target set loses the
receiver — although no transition to zero occurs, because the source guards
the branch on the post-decrement health being ≤ 0, not on a strict crossing. -/
theorem receiveDamageRepeatAtZero :
    ((fun i => if i = 0 then { baseChar with inRangeTargets := {1} }
               else { baseChar with health := 0, isSetToKill := true }) 1).health = 0
    ∧ 1 ∈ ((fun i => if i = 0 then { baseChar with inRangeTargets := {1} }
               else { baseChar with health := 0, isSetToKill := true }) 0).inRangeTargets
    ∧ ((receiveDamage (fun _ => [])
          (fun i => if i = 0 then { baseChar with inRangeTargets := {1} }
                    else { baseChar with health := 0, isSetToKill := true })
          0 1 5).1 0).inRangeTargets = ∅ := by
  refine ⟨rfl, by decide, by decide⟩

/-- C3 (amended): `receiveDamage` leaves the whole world unchanged when the
source is already dead/dying (returning false) or when the receiver is
invincible; otherwise it decreases the receiver's health by the damage with a
floor at zero and sets the taking-damage flag (cleared 0.25s later by a
scheduled callback), and exactly when the decremented health is ≤ 0 — on the
first transition to zero or on any further hit while at zero — it removes the
receiver from the source's and every source-ally's in-range-target set,
clears any such ally's lock-on pointing at the receiver, marks the receiver's
body fixture category destroyed and sets the terminal set-to-kill flag; when
the decremented health is positive, no character other than the receiver
changes and the receiver's set-to-kill flag is untouched. -/
theorem receiveDamageBehavior (allies : CharId → List CharId) (w : World)
    (src tgt : CharId) (damage : Int) :
    (((w src).isSetToKill = true ∨ (w src).isKilled = true) →
        (receiveDamage allies w src tgt damage).1 = w
        ∧ (receiveDamage allies w src tgt damage).2 = false)
    ∧ ((w src).isSetToKill = false → (w src).isKilled = false →
        (w tgt).isInvincible = true →
        (receiveDamage allies w src tgt damage).1 = w)
    ∧ ((w src).isSetToKill = false → (w src).isKilled = false →
        (w tgt).isInvincible = false →
        ((receiveDamage allies w src tgt damage).1 tgt).health
            = max 0 ((w tgt).health - damage)
        ∧ ((receiveDamage allies w src tgt damage).1 tgt).isTakingDamage = true)
    ∧ ((w src).isSetToKill = false → (w src).isKilled = false →
        (w tgt).isInvincible = false → (w tgt).health - damage ≤ 0 →
        ((receiveDamage allies w src tgt damage).1 tgt).isSetToKill = true
        ∧ ((receiveDamage allies w src tgt damage).1 tgt).bodyDestroyedCategory = true
        ∧ tgt ∉ ((receiveDamage allies w src tgt damage).1 src).inRangeTargets
        ∧ ∀ al ∈ allies src,
            tgt ∉ ((receiveDamage allies w src tgt damage).1 al).inRangeTargets
            ∧ ((receiveDamage allies w src tgt damage).1 al).lockedOnTarget ≠ some tgt)
    ∧ ((w src).isSetToKill = false → (w src).isKilled = false →
        (w tgt).isInvincible = false → 0 < (w tgt).health - damage →
        ((receiveDamage allies w src tgt damage).1 tgt).isSetToKill
            = (w tgt).isSetToKill
        ∧ ∀ j, j ≠ tgt → (receiveDamage allies w src tgt damage).1 j = w j) := by
  refine ⟨?_, ?_, ?_, ?_, ?_⟩
  · intro h
    rw [receiveDamage_eq_guard allies w src tgt damage h]
    exact ⟨rfl, rfl⟩
  · intro h1 h2 h3
    rw [receiveDamage_eq_invincible allies w src tgt damage h1 h2 h3]
  · intro h1 h2 h3
    by_cases h4 : (w tgt).health - damage ≤ 0
    · have hk := receiveDamage_kill_tgt allies w src tgt damage h1 h2 h3 h4
      refine ⟨?_, hk.2.1⟩
      rw [hk.1]; omega
    · rw [receiveDamage_eq_noKill allies w src tgt damage h1 h2 h3 (by omega),
          updateChar_same]
      refine ⟨?_, rfl⟩
      dsimp only
      omega
  · intro h1 h2 h3 h4
    have hk := receiveDamage_kill_tgt allies w src tgt damage h1 h2 h3 h4
    refine ⟨hk.2.2.1, hk.2.2.2.1, ?_, ?_⟩
    · rw [receiveDamage_eq_kill allies w src tgt damage h1 h2 h3 h4]
      by_cases hst : src = tgt
      · subst hst
        rw [updateChar_same]
        dsimp only
        rcases foldl_cleanup_eq_or (allies src) src src _ with h | h <;> rw [h]
        · simp only [updateChar]
          split_ifs <;> simp [Finset.not_mem_erase]
        · exact allyCleanupOnKill_not_mem src _
      · rw [updateChar_ne _ _ _ _ hst]
        rcases foldl_cleanup_eq_or (allies src) tgt src _ with h | h <;> rw [h]
        · rw [updateChar_same]
          exact Finset.not_mem_erase _ _
        · exact allyCleanupOnKill_not_mem tgt _
    · intro al hal
      rw [receiveDamage_eq_kill allies w src tgt damage h1 h2 h3 h4]
      by_cases halt : al = tgt
      · subst halt
        rw [updateChar_same]
        exact foldl_cleanup_post (allies src) al al hal _
      · rw [updateChar_ne _ _ _ _ halt]
        exact foldl_cleanup_post (allies src) tgt al hal _
  · intro h1 h2 h3 h4
    rw [receiveDamage_eq_noKill allies w src tgt damage h1 h2 h3 h4]
    refine ⟨?_, ?_⟩
    · rw [updateChar_same]
    · intro j hj
      exact updateChar_ne _ _ _ _ hj

theorem receiveDamageBehavior_witness :
    ((receiveDamage (fun i => if i = 0 then [2] else [])
        (fun i => if i = 2 then { baseChar with inRangeTargets := {1}, lockedOnTarget := some 1 }
                  else if i = 0 then { baseChar with inRangeTargets := {1} }
                  else baseChar)
        0 1 15).1 1).health = 0
    ∧ ((receiveDamage (fun i => if i = 0 then [2] else [])
        (fun i => if i = 2 then { baseChar with inRangeTargets := {1}, lockedOnTarget := some 1 }
                  else if i = 0 then { baseChar with inRangeTargets := {1} }
                  else baseChar)
        0 1 15).1 1).isSetToKill = true
    ∧ 1 ∉ ((receiveDamage (fun i => if i = 0 then [2] else [])
        (fun i => if i = 2 then { baseChar with inRangeTargets := {1}, lockedOnTarget := some 1 }
                  else if i = 0 then { baseChar with inRangeTargets := {1} }
                  else baseChar)
        0 1 15).1 0).inRangeTargets
    ∧ 1 ∉ ((receiveDamage (fun i => if i = 0 then [2] else [])
        (fun i => if i = 2 then { baseChar with inRangeTargets := {1}, lockedOnTarget := some 1 }
                  else if i = 0 then { baseChar with inRangeTargets := {1} }
                  else baseChar)
        0 1 15).1 2).inRangeTargets
    ∧ ((receiveDamage (fun i => if i = 0 then [2] else [])
        (fun i => if i = 2 then { baseChar with inRangeTargets := {1}, lockedOnTarget := some 1 }
                  else if i = 0 then { baseChar with inRangeTargets := {1} }
                  else baseChar)
        0 1 15).1 2).lockedOnTarget ≠ some 1 := by
  have h := receiveDamageBehavior (fun i => if i = 0 then [2] else [])
    (fun i => if i = 2 then { baseChar with inRangeTargets := {1}, lockedOnTarget := some 1 }
              else if i = 0 then { baseChar with inRangeTargets := {1} }
              else baseChar)
    0 1 15
  have h3 := h.2.2.1 rfl rfl rfl
  have h4 := h.2.2.2.1 rfl rfl rfl (by decide)
  have hal := h4.2.2.2 2 (by decide)
  exact ⟨by rw [h3.1]; decide, h4.1, h4.2.2.1, hal.1, hal.2⟩

/-- C4 counterexample: with character 2 an ally of both sides (A = 0, B = 1),
`inflictDamage(0, 1)` leaves character 2 locked onto 0, not onto 1 as the
claim requires of every member of A's ally group: the target-side lock-on
loop runs last and overwrites the attacker-side one. -/
theorem inflictDamageLockOnOverlap :
    2 ∈ (fun i => if i = 0 then [2] else if i = 1 then [2] else ([] : List CharId)) 0
    ∧ ((inflictDamage
          (fun i => if i = 0 then [2] else if i = 1 then [2] else [])
          (fun _ => baseChar) 0 1 7) 2).lockedOnTarget = some 0 := by
  constructor
  · decide
  · rfl

/-- C4 (amended): provided the two ally groups are disjoint and the target is
not a member of the attacker's ally group, `inflictDamage(A, B)` leaves every
member of A's ally group locked onto B, every member of B's ally group locked
onto A, and B itself locked onto A. -/
theorem inflictDamageLockOnPropagation (allies : CharId → List CharId)
    (w : World) (a b : CharId) (damage : Int)
    (hdisj : ∀ x ∈ allies a, x ∉ allies b) (hb : b ∉ allies a) :
    (∀ m ∈ allies a, ((inflictDamage allies w a b damage) m).lockedOnTarget = some b)
    ∧ (∀ m ∈ allies b, ((inflictDamage allies w a b damage) m).lockedOnTarget = some a)
    ∧ ((inflictDamage allies w a b damage) b).lockedOnTarget = some a := by
  unfold inflictDamage
  refine ⟨?_, ?_, ?_⟩
  · intro m hm
    rw [foldl_lockOn_not_mem _ _ _ (hdisj m hm)]
    exact foldl_lockOn_mem _ _ _ hm _
  · intro m hm
    exact foldl_lockOn_mem _ _ _ hm _
  · by_cases hbb : b ∈ allies b
    · exact foldl_lockOn_mem _ _ _ hbb _
    · rw [foldl_lockOn_not_mem _ _ _ hbb, foldl_lockOn_not_mem _ _ _ hb]
      simp [lockOn, updateChar_same]

theorem inflictDamageLockOnPropagation_witness :
    ((inflictDamage (fun i => if i = 0 then [2] else if i = 1 then [3] else [])
        (fun _ => baseChar) 0 1 7) 2).lockedOnTarget = some 1
    ∧ ((inflictDamage (fun i => if i = 0 then [2] else if i = 1 then [3] else [])
        (fun _ => baseChar) 0 1 7) 3).lockedOnTarget = some 0
    ∧ ((inflictDamage (fun i => if i = 0 then [2] else if i = 1 then [3] else [])
        (fun _ => baseChar) 0 1 7) 1).lockedOnTarget = some 0 := by
  have h := inflictDamageLockOnPropagation
    (fun i => if i = 0 then [2] else if i = 1 then [3] else [])
    (fun _ => baseChar) 0 1 7 (by decide) (by decide)
  exact ⟨h.1 2 (by decide), h.2.1 3 (by decide), h.2.2⟩

/-- C5: `determineState` is a pure function of the flags and body velocity
(it is a function of a `StateCtx` by construction), and for every input it
agrees with the first-match evaluation of the spec's priority-ordered list
KILLED > FALLING_GETUP > attacking-variant > DODGING_BACKWARD >
DODGING_FORWARD > FALLING > JUMPING > CROUCHING > RUNNING_START >
RUNNING_STOP > RUNNING > IDLE. -/
theorem determineStatePriorityOrder (c : StateCtx) :
    determineState c = stateFirstMatch (specStatePriority c) := by
  simp only [determineState, specStatePriority, stateFirstMatch,
    decide_eq_true_eq]

/-- C6 counterexample: dispatching the attack variant ATTACKING_CROUCH does
not advance the attack-animation index (the source increments it only for the
literal ATTACKING state), refuting "advancing exactly once per attack-state
dispatch, independent of which attack state fired". -/
theorem attackAnimationIdxVariantNoAdvance :
    runAnimationIdx 2 State.ATTACKING_CROUCH 0 = 0 ∧ (0 + 1) % 2 = 1 := by
  decide

/-- C6 (amended): starting from index 0, after `k` consecutive dispatches of
the literal ATTACKING state the index equals `k mod (1 + extraAttackAnimationCount)`
(hence stays in `[0, attackAnimationCount)`); dispatching any other state,
including the other attack variants, leaves the index unchanged. -/
theorem attackAnimationIdxRotation (extra k : Nat) :
    dispatchSeqIdx (1 + extra) (List.replicate k State.ATTACKING) 0 = k % (1 + extra)
    ∧ dispatchSeqIdx (1 + extra) (List.replicate k State.ATTACKING) 0 < 1 + extra
    ∧ ∀ (s : State) (i : Nat), s ≠ State.ATTACKING →
        runAnimationIdx (1 + extra) s i = i := by
  have h0 : dispatchSeqIdx (1 + extra) (List.replicate k State.ATTACKING) 0
      = (0 + k) % (1 + extra) :=
    dispatchSeqIdx_replicate (1 + extra) (by omega) k 0 (by omega)
  refine ⟨by simpa using h0, ?_, ?_⟩
  · rw [h0]; exact Nat.mod_lt _ (by omega)
  · intro s i hs
    simp [runAnimationIdx, hs]

theorem attackAnimationIdxRotation_witness :
    dispatchSeqIdx (1 + 1) (List.replicate 5 State.ATTACKING) 0 = 5 % (1 + 1)
    ∧ runAnimationIdx (1 + 1) State.KILLED 3 = 3 :=
  ⟨(attackAnimationIdxRotation 1 5).1,
   (attackAnimationIdxRotation 1 5).2.2 State.KILLED 3 (by decide)⟩

/-- C8 counterexample: with `moveSpeed = 1` and horizontal velocity `3`
(rightward, magnitude `3 ≥ 2 × moveSpeed`), `moveLeft` still applies its
impulse: the source's gate `velocity.x >= -moveSpeed * 2` only blocks excess
speed in the direction of the requested motion, not the speed magnitude. -/
theorem moveImpulseOppositeDirection :
    (moveLeft { isCrouching := false, isGettingUpFromFalling := false,
                velocityX := 3, moveSpeed := 1 }).impulseX = some (-1)
    ∧ (2 : ℚ) * 1 ≤ |(3 : ℚ)| := by
  constructor
  · norm_num [moveLeft]
  · norm_num

/-- C8 (amended): `moveLeft` applies its linear impulse exactly when the
character is neither crouching nor getting up from falling and the velocity
in the requested direction does not strictly exceed `2 × moveSpeed`
(`moveLeft`: blocked only when `vx < -moveSpeed * 2`; `moveRight`: only when
`vx > moveSpeed * 2` — the bound is inclusive, and opposite-direction speed
never blocks), the only impulse ever applied is the fixed `±moveSpeed`
horizontal impulse, and the transient start-running flag is set exactly when
those gates pass and the horizontal velocity is exactly zero. -/
theorem moveImpulseGateCharacterization (c : MoveCtx) :
    ((moveLeft c).impulseX = some (-c.moveSpeed) ↔
        c.isCrouching = false ∧ c.isGettingUpFromFalling = false
          ∧ -(c.moveSpeed * 2) ≤ c.velocityX)
    ∧ ((moveLeft c).impulseX ≠ none → (moveLeft c).impulseX = some (-c.moveSpeed))
    ∧ ((moveLeft c).startedRunning = true ↔
        c.isCrouching = false ∧ c.isGettingUpFromFalling = false ∧ c.velocityX = 0)
    ∧ ((moveRight c).impulseX = some c.moveSpeed ↔
        c.isCrouching = false ∧ c.isGettingUpFromFalling = false
          ∧ c.velocityX ≤ c.moveSpeed * 2)
    ∧ ((moveRight c).impulseX ≠ none → (moveRight c).impulseX = some c.moveSpeed)
    ∧ ((moveRight c).startedRunning = true ↔
        c.isCrouching = false ∧ c.isGettingUpFromFalling = false ∧ c.velocityX = 0) := by
  rcases c with ⟨cr, gu, vx, ms⟩
  cases cr <;> cases gu <;>
    simp only [moveLeft, moveRight, Bool.false_or, Bool.true_or, Bool.or_true,
      if_true, if_false, Bool.false_eq_true, ite_true, ite_false, cond_true] <;>
    constructor <;> try constructor
  all_goals
    try (split_ifs <;> simp_all [ge_iff_le, decide_eq_true_eq])
  all_goals
    simp_all [ge_iff_le, decide_eq_true_eq]

theorem moveImpulseGateCharacterization_witness :
    (moveLeft { isCrouching := false, isGettingUpFromFalling := false,
                velocityX := -2, moveSpeed := 1 }).impulseX = some (-1)
    ∧ (moveRight { isCrouching := false, isGettingUpFromFalling := false,
                   velocityX := 0, moveSpeed := 1 }).startedRunning = true := by
  constructor
  · exact ((moveImpulseGateCharacterization _).1).mpr (by norm_num)
  · exact ((moveImpulseGateCharacterization _).2.2.2.2.2).mpr (by norm_num)

/-- C9: at any state with existing BODY and FEET fixtures, the source's
`redefineFeetFixture` destroys and nulls the BODY fixture slot (lines
224-225, a copy-paste defect the spec's design notes flag) while creating the
new FEET fixture (with inherited mask bits), contradicting the claimed
behavior that BODY is left unchanged. -/
theorem redefineFeetFixtureDestroysBodySlot :
    (redefineFeetFixture
        { body := some { categoryBits := 1, maskBits := 5 },
          feet := some { categoryBits := 2, maskBits := 6 },
          weapon := some { categoryBits := 4, maskBits := 7 } } 9).body = none
    ∧ (redefineFeetFixture
        { body := some { categoryBits := 1, maskBits := 5 },
          feet := some { categoryBits := 2, maskBits := 6 },
          weapon := some { categoryBits := 4, maskBits := 7 } } 9).feet
        = some { categoryBits := kFeetCategoryBits, maskBits := 6 }
    ∧ (redefineFeetFixture
        { body := some { categoryBits := 1, maskBits := 5 },
          feet := some { categoryBits := 2, maskBits := 6 },
          weapon := some { categoryBits := 4, maskBits := 7 } } 9).weapon
        = some { categoryBits := 4, maskBits := 7 } := by
  decide

/-- C10: for every character profile, every experience table with positive
per-level thresholds and every nonnegative gain, `addExp` terminates (the
loop is well-founded on the remaining experience) and afterwards the
experience is strictly below the next-level threshold of the resulting
level, the level never decreases (it rises by exactly the number of
thresholds crossed), and total experience is conserved: the final experience
equals the initial experience plus the gain minus the sum of the thresholds
of the levels gained. -/
theorem addExpLevelsAndConservation (tbl : Int → Int) (hpos : ∀ l, 0 < tbl l)
    (e l gain : Int) (hgain : 0 ≤ gain) :
    (addExp tbl hpos e l gain).1 < tbl (addExp tbl hpos e l gain).2
    ∧ l ≤ (addExp tbl hpos e l gain).2
    ∧ (addExp tbl hpos e l gain).1
        = e + gain - ∑ i in Finset.range ((addExp tbl hpos e l gain).2 - l).toNat,
            tbl (l + i) := by
  unfold addExp
  exact addExpLoop_spec tbl hpos (e + gain).toNat (e + gain) l (le_refl _)

/-- A constant experience table with positive thresholds. -/
def expTable100 : Int → Int := fun _ => 100

lemma expTable100_pos : ∀ l, 0 < expTable100 l := fun _ => by norm_num [expTable100]

theorem addExpLevelsAndConservation_witness :
    (addExp expTable100 expTable100_pos 50 1 175).1
        < expTable100 (addExp expTable100 expTable100_pos 50 1 175).2
    ∧ (1 : Int) ≤ (addExp expTable100 expTable100_pos 50 1 175).2
    ∧ addExp expTable100 expTable100_pos 50 1 175 = (25, 3) := by
  have h := addExpLevelsAndConservation expTable100 expTable100_pos 50 1 175 (by norm_num)
  refine ⟨h.1, h.2.1, ?_⟩
  show addExpLoop expTable100 expTable100_pos (50 + 175) 1 = (25, 3)
  rw [addExpLoop]
  norm_num [expTable100]
  rw [addExpLoop]
  norm_num [expTable100]
  rw [addExpLoop]
  norm_num [expTable100]

end Vigilante
